import Mathlib

/-!
Verification of the session-scoped hybrid retrieval memory engine of
`n8n-nodes-miniagent`: the in-memory `VectorStore` (multi-metric exhaustive
nearest-neighbour search, export/import round trip), the BM25 keyword index
and rank-fusion algorithm (modelled from the specification, since their
source files are not part of the repository snapshot), and the `RAGMemory`
facade with its TTL-based session cache and static-data persistence.

Numbers are modelled by the exact reals `ℝ` (the idealisation of the
JavaScript floating-point arithmetic used by the source); machine strings by
`String`; JavaScript `Map`s by insertion-ordered association lists with the
`set`-semantics of `Map.prototype.set` (update in place, else append).
-/

namespace MiniAgent

/-- Model of a JavaScript `Record<string, unknown>` metadata object: an
association list of key/value pairs (values rendered as strings). -/
abbrev Metadata := List (String × String)

/-- `DistanceMetric` from `VectorStore.ts`: `'cosine' | 'euclidean' | 'dot'`. -/
inductive DistanceMetric where
  | cosine
  | euclidean
  | dot
  deriving DecidableEq

/-- `VectorDocument` from `VectorStore.ts`. -/
structure VectorDocument where
  id : String
  content : String
  vector : List ℝ
  metadata : Option Metadata

/-- `SearchResult` from `VectorStore.ts`. -/
structure SearchResult where
  id : String
  content : String
  distance : ℝ
  similarity : ℝ
  metadata : Option Metadata

/-- Internal `StoredDocument` from `VectorStore.ts` (document plus the
optionally cached vector norm, present only under the cosine metric). -/
structure StoredDocument where
  id : String
  content : String
  vector : List ℝ
  metadata : Option Metadata
  norm : Option ℝ

/-- The running dot product `dot += a[i] * b[i]` of the source loops
(over the common length of the two vectors). -/
def dotprod (a b : List ℝ) : ℝ := (List.zipWith (fun x y => x * y) a b).sum

/-- The running sum `nA += a[i] * a[i]` of squared components. -/
def sumSquares (a : List ℝ) : ℝ := (a.map (fun x => x * x)).sum

/-- `cosineDistance(a, b, normA?, normB?)` from `VectorStore.ts` lines 51-73:
norms are recomputed when not supplied; a zero denominator yields distance 1;
otherwise `1 - clamp(dot / (normA * normB), -1, 1)`. -/
noncomputable def cosineDistance (a b : List ℝ) (normA normB : Option ℝ) : ℝ :=
  let dot := dotprod a b
  let nA := match normA with
    | some n => n
    | none => Real.sqrt (sumSquares a)
  let nB := match normB with
    | some n => n
    | none => Real.sqrt (sumSquares b)
  let denom := nA * nB
  if denom = 0 then 1
  else 1 - max (-1) (min 1 (dot / denom))

/-- `euclideanDistance(a, b)` from `VectorStore.ts` lines 78-85. -/
noncomputable def euclideanDistance (a b : List ℝ) : ℝ :=
  Real.sqrt ((List.zipWith (fun x y => (x - y) * (x - y)) a b).sum)

/-- `dotProductDistance(a, b)` from `VectorStore.ts` lines 90-96. -/
def dotProductDistance (a b : List ℝ) : ℝ := -(dotprod a b)

/-- `VectorStore.computeNorm` from `VectorStore.ts` lines 122-128. -/
noncomputable def computeNorm (v : List ℝ) : ℝ := Real.sqrt (sumSquares v)

/-! ### Sorting infrastructure

JavaScript `Array.prototype.sort` with a numeric comparator is a stable
comparison sort; it is modelled by `List.insertionSort` (stable) over the
corresponding key. -/

/-- Stable ascending sort by a real-valued key (`sort((a, b) => key a - key b)`). -/
noncomputable def sortAscBy {α : Type} (key : α → ℝ) (l : List α) : List α :=
  @List.insertionSort α (fun a b => key a ≤ key b) (fun _ _ => Real.decidableLE _ _) l

/-- Stable descending sort by a real-valued key (`sort((a, b) => key b - key a)`). -/
noncomputable def sortDescBy {α : Type} (key : α → ℝ) (l : List α) : List α :=
  @List.insertionSort α (fun a b => key b ≤ key a) (fun _ _ => Real.decidableLE _ _) l

/-! ### JavaScript `Map` model -/

/-- `Map.prototype.set` on an insertion-ordered association list keyed by
`key`: update in place when the key is present, append otherwise. -/
def mapSet {α : Type} (key : α → String) (l : List α) (x : α) : List α :=
  if l.any (fun e => key e == key x) then l.map (fun e => if key e == key x then x else e)
  else l ++ [x]

/-! ### Keyword index

`BM25Index.ts` is imported by `VectorStore.ts` but its source is not part of
the repository snapshot; the definitions below are modelled from the
specification (§4.2). -/

/-- Modelled from the spec: tokenization of the missing `BM25Index.ts` —
"tokenize query (lowercase; split on non-alphanumeric boundaries)" —
implemented structurally over the character list. -/
def splitTokens : List Char → List Char → List String
  | [], cur => [String.mk cur.reverse]
  | c :: rest, cur =>
      if c.isAlphanum then splitTokens rest (c :: cur)
      else String.mk cur.reverse :: splitTokens rest []

/-- Modelled from the spec: lowercase, split on non-alphanumeric boundaries,
drop empty tokens. -/
def tokenize (s : String) : List String :=
  (splitTokens (s.toList.map Char.toLower) []).filter (fun t => t ≠ "")

/-- Modelled from the spec: a document entry of the missing `BM25Index.ts` —
id, the tokenized terms of the indexed `content` text field, and the
metadata carried into search results. -/
structure BM25Doc where
  id : String
  terms : List String
  metadata : Option Metadata
  deriving DecidableEq

/-- `BM25SearchResult` as used by `VectorStore.ts`: id, score, metadata. -/
structure BM25SearchResult where
  id : String
  score : ℝ
  metadata : Option Metadata

/-- Modelled from the spec: the missing `BM25Index` class. Corpus statistics
(document frequency, average document length) are recomputed from the
current corpus at query time, never cached (§4.2). -/
structure BM25Index where
  textFields : List String
  docs : List BM25Doc

/-- Modelled from the spec: `addDocument(id, fields)` of the missing
`BM25Index.ts`. The store always configures `textFields = ['content']` and
passes `{ content: doc.content, ...doc.metadata }`, so the indexed text is
the document content. -/
def BM25Index.addDocument (idx : BM25Index) (id : String) (content : String)
    (metadata : Option Metadata) : BM25Index :=
  { idx with docs := mapSet (fun d => d.id) idx.docs ⟨id, tokenize content, metadata⟩ }

/-- Modelled from the spec: `IDF(term) = ln((N − df + 0.5)/(df + 0.5) + 1)`. -/
noncomputable def bm25IDF (n df : ℕ) : ℝ :=
  Real.log (((n : ℝ) - (df : ℝ) + 0.5) / ((df : ℝ) + 0.5) + 1)

/-- Document frequency of a term over the current corpus. -/
def docFreq (t : String) (docs : List BM25Doc) : ℕ :=
  (docs.filter (fun d => d.terms.contains t)).length

/-- Modelled from the spec: per-document BM25 score
`Σ_term IDF(term) · tf·(k1+1) / (tf + k1·(1−b + b·docLen/avgDocLen))`
with `k1 = 1.2`, `b = 0.75`. -/
noncomputable def bm25Score (docs : List BM25Doc) (avgdl : ℝ) (qts : List String)
    (d : BM25Doc) : ℝ :=
  List.sum <| qts.map fun t =>
    let tf : ℝ := (d.terms.count t : ℝ)
    let dl : ℝ := (d.terms.length : ℝ)
    let idf := bm25IDF docs.length (docFreq t docs)
    idf * (tf * (1.2 + 1) / (tf + 1.2 * (1 - 0.75 + 0.75 * (dl / avgdl))))

/-- Modelled from the spec: `search(query, k)` of the missing `BM25Index.ts` —
tokenize the query, score every document sharing at least one term, return
the top-k descending by score. -/
noncomputable def BM25Index.search (idx : BM25Index) (query : String) (k : ℕ) :
    List BM25SearchResult :=
  let qts := (tokenize query).dedup
  let candidates := idx.docs.filter (fun d => qts.any (fun t => d.terms.contains t))
  let avgdl : ℝ := ((idx.docs.map (fun d => (d.terms.length : ℝ))).sum) / (idx.docs.length : ℝ)
  let scored := candidates.map (fun d =>
    BM25SearchResult.mk d.id (bm25Score idx.docs avgdl qts d) d.metadata)
  (sortDescBy (fun r => r.score) scored).take k

/-! ### Rank fusion

`HybridSearch.ts` is imported by `VectorStore.ts` but its source is not part
of the repository snapshot; the definitions below are modelled from the
specification (§4.3). -/

/-- `SearchMode` from `HybridSearch.ts`. -/
inductive SearchMode where
  | vector
  | keyword
  | hybrid
  deriving DecidableEq

/-- `FusionMethod` from `HybridSearch.ts`. -/
inductive FusionMethod where
  | rrf
  | weighted
  deriving DecidableEq

/-- `VectorSearchResult` as passed to `hybridFusion` by `VectorStore.ts`. -/
structure VectorSearchResult where
  id : String
  distance : ℝ
  similarity : ℝ
  metadata : Option Metadata

/-- `HybridSearchResult` (the spec's `FusedResult`): id, combined score,
available component scores, metadata. -/
structure HybridSearchResult where
  id : String
  score : ℝ
  vectorSimilarity : Option ℝ
  keywordScore : Option ℝ
  metadata : Option Metadata

def listMax : List ℝ → ℝ
  | [] => 0
  | x :: xs => xs.foldl max x

def listMin : List ℝ → ℝ
  | [] => 0
  | x :: xs => xs.foldl min x

/-- Modelled from the spec: min-max normalization of a score against a score
list (§4.3). On a constant list the formula divides by zero, which in this
real-number model yields 0. -/
noncomputable def minMaxNorm (l : List ℝ) (x : ℝ) : ℝ :=
  (x - listMin l) / (listMax l - listMin l)

/-- 1-based rank of an id inside a ranked id list. -/
def rankOf (ids : List String) (id : String) : ℕ := ids.indexOf id + 1

/-- Modelled from the spec: the fused entry of one id (§4.3) — combined
score per the fusion method (a document absent from one list contributes 0
for that list's term), with the available component scores and metadata
attached. -/
noncomputable def fusionEntry (vec : List VectorSearchResult) (kw : List BM25SearchResult)
    (method : FusionMethod) (alpha : ℝ) (id : String) : HybridSearchResult :=
  let v := vec.find? (fun r => r.id == id)
  let kwr := kw.find? (fun r => r.id == id)
  let score :=
    match method with
    | .weighted =>
        alpha * ((v.map (fun r =>
            minMaxNorm (vec.map (fun r => r.similarity)) r.similarity)).getD 0) +
          (1 - alpha) * ((kwr.map (fun r =>
            minMaxNorm (kw.map (fun r => r.score)) r.score)).getD 0)
    | .rrf =>
        ((v.map (fun _ => 1 / ((rankOf (vec.map (fun r => r.id)) id : ℝ) + 60))).getD 0) +
          ((kwr.map (fun _ => 1 / ((rankOf (kw.map (fun r => r.id)) id : ℝ) + 60))).getD 0)
  HybridSearchResult.mk id score
    (v.map (fun r => r.similarity))
    (kwr.map (fun r => r.score))
    (match v with
      | some r => r.metadata
      | none => (kwr.map (fun r => r.metadata)).getD none)

/-- Modelled from the spec: `hybridFusion` of the missing `HybridSearch.ts`
(§4.3). The union of ids is built from the vector results first, then the
keyword-only results; each id is scored by the fusion method; the union is
sorted descending by combined score and truncated to `k`. -/
noncomputable def hybridFusion (vec : List VectorSearchResult) (kw : List BM25SearchResult)
    (k : ℕ) (method : FusionMethod) (alpha : ℝ) : List HybridSearchResult :=
  let ids := vec.map (fun r => r.id) ++
    ((kw.filter (fun r => !(vec.any (fun v => v.id == r.id)))).map (fun r => r.id))
  (sortDescBy (fun r => r.score) (ids.map (fusionEntry vec kw method alpha))).take k

/-! ### VectorStore (`VectorStore.ts`) -/

/-- The `VectorStore` class state: insertion-ordered document map, configured
dimensions and metric, optional BM25 index. -/
structure VectorStore where
  documents : List StoredDocument
  dimensions : ℕ
  distance : DistanceMetric
  bm25Index : Option BM25Index

/-- `new VectorStore(options)`: `distance = options.distance || 'cosine'`,
empty document map, no BM25 index. -/
def mkVectorStore (dimensions : ℕ) (distance : Option DistanceMetric) : VectorStore :=
  ⟨[], dimensions, distance.getD .cosine, none⟩

/-- `get size()`. -/
def VectorStore.size (s : VectorStore) : ℕ := s.documents.length

/-- `VectorStore.calculateDistance`: dispatch on the configured metric. -/
noncomputable def calculateDistance (metric : DistanceMetric) (a b : List ℝ)
    (normA normB : Option ℝ) : ℝ :=
  match metric with
  | .cosine => cosineDistance a b normA normB
  | .euclidean => euclideanDistance a b
  | .dot => dotProductDistance a b

/-- The stored form of a document inserted by `add` under metric `dist`:
vector copied, `metadata || null`, norm precomputed only under cosine. -/
noncomputable def storedOf (dist : DistanceMetric) (d : VectorDocument) : StoredDocument :=
  ⟨d.id, d.content, d.vector, d.metadata,
    if dist = .cosine then some (computeNorm d.vector) else none⟩

/-- `VectorStore.add` (lines 149-168): throws on dimension mismatch (the
store is untouched, since the check precedes every mutation); otherwise
upserts into the document map by id and updates the BM25 index if present. -/
noncomputable def VectorStore.add (s : VectorStore) (doc : VectorDocument) :
    Except String VectorStore :=
  if doc.vector.length ≠ s.dimensions then
    .error s!"Dimension mismatch: expected {s.dimensions}, got {doc.vector.length}"
  else
    .ok { s with
      documents := mapSet (fun d => d.id) s.documents (storedOf s.distance doc),
      bm25Index := match s.bm25Index with
        | some idx => some (idx.addDocument doc.id doc.content doc.metadata)
        | none => none }

/-- The state of the store object after `add` returns or throws: unchanged on
a throw. -/
noncomputable def VectorStore.addPost (s : VectorStore) (doc : VectorDocument) : VectorStore :=
  match s.add doc with
  | .ok s2 => s2
  | .error _ => s

/-- The similarity derived from a distance in `search` (lines 230-237). -/
noncomputable def simFromDist (metric : DistanceMetric) (d : ℝ) : ℝ :=
  if metric = .cosine then 1 - d
  else if metric = .dot then -d
  else 1 / (1 + d)

/-- The loop body of `search` (lines 227-250): compute the document's
distance and metric-specific similarity, drop it when
`similarity < minSimilarity`, otherwise produce its `SearchResult`. -/
noncomputable def scoreDoc (metric : DistanceMetric) (queryVector : List ℝ)
    (queryNorm : Option ℝ) (minSimilarity : ℝ) (doc : StoredDocument) : Option SearchResult :=
  let distance := calculateDistance metric queryVector doc.vector queryNorm doc.norm
  let similarity := simFromDist metric distance
  if similarity < minSimilarity then none
  else some (SearchResult.mk doc.id doc.content distance similarity doc.metadata)

/-- `VectorStore.search` (lines 215-254): validate the query dimension,
return `[]` on an empty store, otherwise score every document, drop those
with `similarity < minSimilarity`, sort ascending by distance and truncate
to `min(k, results.length)`. -/
noncomputable def VectorStore.search (s : VectorStore) (queryVector : List ℝ) (k : ℕ)
    (minSimilarity : ℝ) : Except String (List SearchResult) :=
  if queryVector.length ≠ s.dimensions then
    .error s!"Query dimension mismatch: expected {s.dimensions}, got {queryVector.length}"
  else if s.documents.length = 0 then .ok []
  else
    let queryNorm := if s.distance = .cosine then some (computeNorm queryVector) else none
    let results := s.documents.filterMap (scoreDoc s.distance queryVector queryNorm minSimilarity)
    let sorted := sortAscBy (fun r => r.distance) results
    .ok (sorted.take (min k sorted.length))

/-- The list returned by a successful `search` (and `[]` after a throw). -/
noncomputable def searchOutput (s : VectorStore) (queryVector : List ℝ) (k : ℕ)
    (minSimilarity : ℝ) : List SearchResult :=
  match s.search queryVector k minSimilarity with
  | .ok rs => rs
  | .error _ => []

/-- `VectorStore.configureBM25`: build a fresh BM25 index over the current
documents. -/
def VectorStore.configureBM25 (s : VectorStore) (textFields : List String) : VectorStore :=
  let idx := s.documents.foldl (fun idx doc => idx.addDocument doc.id doc.content doc.metadata)
    (BM25Index.mk textFields [])
  { s with bm25Index := some idx }

/-- `VectorStore.keywordSearch` (lines 259-264): search the configured BM25
index; when none is configured the source lazily calls `configureBM25()`
first — the model queries the identically-built index (the cached
configuration is observationally equivalent for every later search). -/
noncomputable def VectorStore.keywordSearch (s : VectorStore) (query : String) (k : ℕ) :
    List BM25SearchResult :=
  match s.bm25Index with
  | some idx => idx.search query k
  | none =>
      (s.documents.foldl (fun idx doc => idx.addDocument doc.id doc.content doc.metadata)
        (BM25Index.mk ["content"] [])).search query k

/-- Metadata decorated with the result content, `{...metadata, content}`. -/
def mergeContent (m : Option Metadata) (c : String) : Metadata :=
  m.getD [] ++ [("content", c)]

/-- Metadata decorated with an optional content (`doc?.content`). -/
def mergeContentOpt (m : Option Metadata) (c : Option String) : Metadata :=
  m.getD [] ++ (match c with
    | some s => [("content", s)]
    | none => [])

/-- `HybridSearchOptions` from `VectorStore.ts`: optional fields are `Option`;
a missing or empty `keywords` string is falsy in the source's
`if (!keywords)` guards. -/
structure HybridSearchOptions where
  mode : SearchMode
  k : ℕ
  queryVector : Option (List ℝ)
  keywords : Option String
  alpha : Option ℝ
  fusionMethod : Option FusionMethod

/-- `VectorStore.hybridSearch` (lines 269-320): vector mode delegates to
`search` with the default `minSimilarity = 0`; keyword mode to
`keywordSearch`; hybrid mode over-fetches `max(3k, 50)` from both and fuses
with `hybridFusion` (defaults `alpha = 0.5`, `fusionMethod = 'rrf'`). -/
noncomputable def VectorStore.hybridSearch (s : VectorStore) (options : HybridSearchOptions) :
    Except String (List HybridSearchResult) :=
  let alpha := options.alpha.getD 0.5
  let fusionMethod := options.fusionMethod.getD .rrf
  match options.mode with
  | .vector =>
      match options.queryVector with
      | none => .error "queryVector is required for vector search mode"
      | some qv =>
          (s.search qv options.k 0).map (fun rs => rs.map (fun r =>
            HybridSearchResult.mk r.id r.similarity (some r.similarity) none
              (some (mergeContent r.metadata r.content))))
  | .keyword =>
      match options.keywords with
      | none => .error "keywords is required for keyword search mode"
      | some kws =>
          if kws = "" then .error "keywords is required for keyword search mode"
          else
            .ok ((s.keywordSearch kws options.k).map (fun r =>
              HybridSearchResult.mk r.id r.score none (some r.score)
                (some (mergeContentOpt r.metadata
                  ((s.documents.find? (fun d => d.id == r.id)).map (fun d => d.content))))))
  | .hybrid =>
      match options.queryVector with
      | none => .error "queryVector is required for hybrid search mode"
      | some qv =>
          match options.keywords with
          | none => .error "keywords is required for hybrid search mode"
          | some kws =>
              if kws = "" then .error "keywords is required for hybrid search mode"
              else
                let fetchK := max (options.k * 3) 50
                (s.search qv fetchK 0).map (fun vres =>
                  hybridFusion
                    (vres.map (fun r => VectorSearchResult.mk r.id r.distance r.similarity
                      (some (mergeContent r.metadata r.content))))
                    (s.keywordSearch kws fetchK) options.k fusionMethod alpha)

/-- `VectorStore.get` (lines 325-335). -/
def toVectorDocument (d : StoredDocument) : VectorDocument :=
  ⟨d.id, d.content, d.vector, d.metadata⟩

/-- `VectorStore.get`: look the document up by id, return a copy without the
cached norm (`metadata || undefined`). -/
def VectorStore.get (s : VectorStore) (id : String) : Option VectorDocument :=
  (s.documents.find? (fun d => d.id == id)).map toVectorDocument

/-- The serialized shape `{dimensions, distance, documents}` of
`export()` / the static `import()`. -/
structure ExportData where
  dimensions : ℕ
  distance : DistanceMetric
  documents : List VectorDocument

/-- `VectorStore.export` (lines 340-355). -/
def VectorStore.export (s : VectorStore) : ExportData :=
  ⟨s.dimensions, s.distance, s.documents.map toVectorDocument⟩

/-- The static `VectorStore.import(data)` (lines 360-375): build a fresh
store with the serialized dimensions and metric and `add` every document in
order (a dimension-mismatched document makes the whole call throw). -/
noncomputable def VectorStore.importStore (data : ExportData) : Except String VectorStore :=
  data.documents.foldlM (fun st doc => st.add doc)
    (mkVectorStore data.dimensions (some data.distance))

/-- The store produced by a successful `importStore` (and the fresh empty
store after a throw). -/
noncomputable def importPost (data : ExportData) : VectorStore :=
  match VectorStore.importStore data with
  | .ok st => st
  | .error _ => mkVectorStore data.dimensions (some data.distance)

/-! ### RAGMemory (`RAGMemory.ts`)

The session cache is the module-level `ragStores` map; it is modelled as an
explicit insertion-ordered association list threaded through every
operation, with the current time `now` (milliseconds) passed explicitly. -/

/-- Message roles from `LLMProvider.ts`. -/
inductive Role where
  | system
  | user
  | assistant
  | tool
  deriving DecidableEq

/-- `Message` from `LLMProvider.ts` (the fields `RAGMemory` reads). -/
structure Message where
  role : Role
  content : String
  toolCallId : Option String
  deriving DecidableEq

def roleString : Role → String
  | .system => "system"
  | .user => "user"
  | .assistant => "assistant"
  | .tool => "tool"

/-- `RAGConfig` with the constructor defaults already resolved
(`maxContextMessages = 10`, `minSimilarity = 0.5`, `searchMode = 'hybrid'`,
`persistToStaticData = false` unless overridden). -/
structure RAGConfig where
  sessionId : String
  dimensions : ℕ
  maxContextMessages : ℕ
  minSimilarity : ℝ
  searchMode : SearchMode
  persistToStaticData : Bool

/-- An entry of the module-level `ragStores` map. -/
structure SessionEntry where
  store : VectorStore
  messages : List Message
  lastAccess : ℤ

/-- The `ragStores` map: session key to entry, insertion ordered. -/
abbrev Registry := List (String × SessionEntry)

/-- `STORE_TTL = 60 * 60 * 1000` (1 hour, in milliseconds). -/
def STORE_TTL : ℤ := 60 * 60 * 1000

/-- `cleanupExpiredStores` (lines 51-58): delete every entry idle strictly
longer than the TTL. -/
def cleanupExpiredStores (reg : Registry) (now : ℤ) : Registry :=
  reg.filter (fun p => !decide (now - p.2.lastAccess > STORE_TTL))

def lookupEntry (reg : Registry) (key : String) : Option SessionEntry :=
  (reg.find? (fun p => p.1 == key)).map (fun p => p.2)

def setEntry (reg : Registry) (key : String) (e : SessionEntry) : Registry :=
  mapSet (fun p => p.1) reg (key, e)

/-- `ragStores.delete(key)`. -/
def deleteEntry (reg : Registry) (key : String) : Registry :=
  reg.filter (fun p => !(p.1 == key))

/-- The `{store: VectorStore.export(), messages}` payload serialized into
workflow static data. -/
structure PersistPayload where
  store : ExportData
  messages : List Message

/-- A value stored in workflow static data under a session's persistence
key: either not a string at all (`typeof stored !== 'string'`), or a string
represented by the outcome of `JSON.parse` on it — `none` models a parse
failure or a JSON shape from which the `{store, messages}` payload cannot
be read. -/
inductive StaticValue where
  | nonString
  | jsonString (parsed : Option PersistPayload)

/-- `getWorkflowStaticData('global')`, keyed by `rag_<sessionId>`. -/
abbrev StaticData := List (String × StaticValue)

def lookupStatic (sd : StaticData) (key : String) : Option StaticValue :=
  (sd.find? (fun p => p.1 == key)).map (fun p => p.2)

def setStatic (sd : StaticData) (key : String) (v : StaticValue) : StaticData :=
  mapSet (fun p => p.1) sd (key, v)

def deleteStatic (sd : StaticData) (key : String) : StaticData :=
  sd.filter (fun p => !(p.1 == key))

/-- The static-data key `rag_<sessionId>`. -/
def ragKey (sessionId : String) : String := "rag_" ++ sessionId

/-- The cache key `<workflowId>__<sessionId>` (the workflow id falls back to
`'default'` without execute functions). -/
def storeKey (workflowId sessionId : String) : String := workflowId ++ "__" ++ sessionId

/-- `RAGMemory.loadFromStaticData` (lines 310-342): absent execute
functions, a non-string blob, an unparsable or wrong-shaped string, and an
exception thrown while rebuilding the store (`VectorStore.import` on
dimension-mismatched documents) all yield `null` — the `catch` block
degrades every restore failure to a miss. -/
noncomputable def loadFromStaticData (hasEF : Bool) (sd : StaticData) (sessionId : String)
    (now : ℤ) : Option SessionEntry :=
  if !hasEF then none
  else
    match lookupStatic sd (ragKey sessionId) with
    | some (.jsonString (some data)) =>
        match VectorStore.importStore data.store with
        | .ok store => some ⟨store.configureBM25 ["content"], data.messages, now⟩
        | .error _ => none
    | _ => none

/-- `RAGMemory.getStore` (lines 88-122): lazily evict expired entries, then
fetch the session entry, restoring it from static data (when persistence is
configured) or creating a fresh empty one on a miss; `lastAccess` is
refreshed on every access. -/
noncomputable def getStore (cfg : RAGConfig) (hasEF : Bool) (workflowId : String)
    (reg : Registry) (sd : StaticData) (now : ℤ) : Registry × SessionEntry :=
  let reg1 := cleanupExpiredStores reg now
  let key := storeKey workflowId cfg.sessionId
  match lookupEntry reg1 key with
  | some entry =>
      let e := { entry with lastAccess := now }
      (setEntry reg1 key e, e)
  | none =>
      let loaded := if cfg.persistToStaticData && hasEF then
          loadFromStaticData hasEF sd cfg.sessionId now
        else none
      match loaded with
      | some entry =>
          let e := { entry with lastAccess := now }
          (setEntry reg1 key e, e)
      | none =>
          let fresh : SessionEntry :=
            ⟨(mkVectorStore cfg.dimensions (some .cosine)).configureBM25 ["content"], [], now⟩
          (setEntry reg1 key fresh, fresh)

/-- The LLM provider as `RAGMemory` sees it: the optional `embed`
capability, modelled as a deterministic text-to-vector function. -/
abbrev EmbedCapability := Option (String → List ℝ)

/-- The message of the error thrown by `RAGMemory.embed` when the provider
lacks the capability. -/
def capabilityErrorMsg : String := "LLM provider does not support embeddings"

/-- `RAGMemory.saveToStaticData` (lines 344-357). -/
noncomputable def saveToStaticData (cfg : RAGConfig) (hasEF : Bool) (workflowId : String)
    (reg : Registry) (sd : StaticData) (now : ℤ) : StaticData :=
  if !hasEF then sd
  else
    let entry := (getStore cfg hasEF workflowId reg sd now).2
    setStatic sd (ragKey cfg.sessionId)
      (.jsonString (some ⟨entry.store.export, entry.messages⟩))

/-- The observable outcome of `RAGMemory.addMessage`: the registry and
static data after the call, the number of Embedder invocations performed,
and the thrown error, if any. `docId` stands in for the randomly generated
document id. -/
structure AddMessageResult where
  registry : Registry
  staticData : StaticData
  embedCalls : ℕ
  error : Option String

/-- `RAGMemory.addMessage` (lines 139-172): fetch the session entry (which
may create or refresh it); return immediately on a system-role or
blank-content message; otherwise embed the content, insert the document
into the session store, append the message, and persist if configured. -/
noncomputable def addMessage (cfg : RAGConfig) (prov : EmbedCapability) (hasEF : Bool)
    (workflowId : String) (reg : Registry) (sd : StaticData) (now : ℤ)
    (msg : Message) (docId : String) : AddMessageResult :=
  let key := storeKey workflowId cfg.sessionId
  let (reg1, entry) := getStore cfg hasEF workflowId reg sd now
  if msg.role = .system ∨ msg.content.trim = "" then ⟨reg1, sd, 0, none⟩
  else
    match prov with
    | none => ⟨reg1, sd, 0, some capabilityErrorMsg⟩
    | some f =>
        let vector := f msg.content
        let meta : Metadata :=
          [("role", roleString msg.role), ("timestamp", toString now)] ++
            (match msg.toolCallId with
              | some tid => [("toolCallId", tid)]
              | none => [])
        match entry.store.add ⟨docId, msg.content, vector, some meta⟩ with
        | .error e => ⟨reg1, sd, 1, some e⟩
        | .ok store2 =>
            let e2 : SessionEntry := ⟨store2, entry.messages ++ [msg], entry.lastAccess⟩
            let reg2 := setEntry reg1 key e2
            let sd2 := if cfg.persistToStaticData then
                saveToStaticData cfg hasEF workflowId reg2 sd now
              else sd
            ⟨reg2, sd2, 1, none⟩

/-- One hit of `RAGContext.relevantHistory`. -/
structure RelevantHit where
  content : String
  role : String
  similarity : ℝ
  metadata : Option Metadata

/-- `RAGContext` from `RAGMemory.ts`. -/
structure RAGContext where
  messages : List Message
  relevantHistory : List RelevantHit

/-- The observable outcome of `RAGMemory.getContext`. -/
structure GetContextResult where
  registry : Registry
  embedCalls : ℕ
  result : Except String RAGContext

/-- Property lookup on a metadata object. -/
def metaLookup (m : Option Metadata) (k : String) : Option String :=
  ((m.getD []).find? (fun p => p.1 == k)).map (fun p => p.2)

/-- `RAGMemory.getContext` (lines 186-248): fetch the session entry, embed
the query (throwing first when the provider lacks the capability), run the
configured search mode when the index is nonempty, then apply the
minimum-similarity filter (skipped when `minSimilarity` is falsy, i.e. 0). -/
noncomputable def getContext (cfg : RAGConfig) (prov : EmbedCapability) (hasEF : Bool)
    (workflowId : String) (reg : Registry) (sd : StaticData) (now : ℤ)
    (query : String) (kOpt : Option ℕ) : GetContextResult :=
  let (reg1, entry) := getStore cfg hasEF workflowId reg sd now
  let maxK := kOpt.getD cfg.maxContextMessages
  match prov with
  | none => ⟨reg1, 0, .error capabilityErrorMsg⟩
  | some f =>
      let queryVector := f query
      let searched : Except String (List RelevantHit) :=
        if entry.store.size > 0 then
          match cfg.searchMode with
          | .hybrid =>
              (entry.store.hybridSearch
                ⟨.hybrid, maxK, some queryVector, some query, some 0.5, none⟩).map
                (fun rs => rs.map (fun r =>
                  ⟨(metaLookup r.metadata "content").getD "",
                    (metaLookup r.metadata "role").getD "unknown",
                    r.vectorSimilarity.getD r.score, r.metadata⟩))
          | .keyword =>
              .ok ((entry.store.keywordSearch query maxK).map (fun r =>
                let doc := entry.store.get r.id
                ⟨(doc.map (fun d => d.content)).getD "",
                  ((doc.bind (fun d => metaLookup d.metadata "role")).getD "unknown"),
                  r.score, r.metadata⟩))
          | .vector =>
              (entry.store.search queryVector maxK cfg.minSimilarity).map
                (fun rs => rs.map (fun r =>
                  ⟨r.content, (metaLookup r.metadata "role").getD "unknown",
                    r.similarity, r.metadata⟩))
        else .ok []
      match searched with
      | .error e => ⟨reg1, 1, .error e⟩
      | .ok hits =>
          let filtered := if cfg.minSimilarity ≠ 0 then
              hits.filter (fun h => decide (cfg.minSimilarity ≤ h.similarity))
            else hits
          ⟨reg1, 1, .ok ⟨entry.messages, filtered⟩⟩

/-- `RAGMemory.clear` (lines 283-290): delete the session's registry entry
immediately (no TTL check), and its persisted blob when persistence is
configured. -/
def clearMemory (cfg : RAGConfig) (hasEF : Bool) (workflowId : String)
    (reg : Registry) (sd : StaticData) : Registry × StaticData :=
  (deleteEntry reg (storeKey workflowId cfg.sessionId),
    if cfg.persistToStaticData && hasEF then deleteStatic sd (ragKey cfg.sessionId) else sd)

/-- The persisted blobs the spec calls corrupt or schema-incompatible: not a
string, unparsable or wrong-shaped JSON, or a payload whose documents make
the store rebuild throw (dimension mismatch). An absent key is a plain
cache miss, not a corrupt blob. -/
def corruptBlob : Option StaticValue → Prop
  | some .nonString => True
  | some (.jsonString none) => True
  | some (.jsonString (some p)) => ∃ e, VectorStore.importStore p.store = .error e
  | none => False

/-! ### Concrete fixtures used by witnesses and counterexamples -/

/-- A one-document store under the dot metric (dimension 1). -/
noncomputable def w9Store : VectorStore :=
  ⟨[⟨"a", "old", [2], none, none⟩], 1, .dot, none⟩

/-- A replacement document with the id already stored in `w9Store`. -/
noncomputable def w9Doc : VectorDocument := ⟨"a", "new", [3], some [("k", "v")]⟩

/-- A two-component document, mismatching dimension 1. -/
noncomputable def wDoc2 : VectorDocument := ⟨"a", "x", [1, 2], none⟩

/-- A session configuration without persistence. -/
noncomputable def wCfg : RAGConfig := ⟨"s1", 1, 10, 0.5, .hybrid, false⟩

/-- A session configuration with persistence enabled. -/
noncomputable def w6Cfg : RAGConfig := ⟨"s1", 1, 10, 0.5, .hybrid, true⟩

/-- A system-role message. -/
def w5Msg : Message := ⟨.system, "hello", none⟩

/-- Static data holding an unparsable persisted blob for session `s1`. -/
def w6Static : StaticData := [("rag_s1", .jsonString none)]

/-- The fresh empty session entry created at time 5 for dimension 1. -/
noncomputable def w7Entry : SessionEntry :=
  ⟨(mkVectorStore 1 (some .cosine)).configureBM25 ["content"], [], 5⟩

/-- The length of a successful hybrid-search result list. -/
def resultLength (e : Except String (List HybridSearchResult)) : Option ℕ :=
  match e with
  | .ok l => some l.length
  | .error _ => none

/-- A three-document store (dot metric, dimension 1, BM25 index exactly as
`configureBM25(['content'])` builds it over the documents): `d1` and `d3`
point positively along the query direction `[1]`, `d2` negatively — so the
vector search of `hybridSearch` (default `minSimilarity = 0`) drops `d2`,
while the keyword query `"beta"` matches only `d2`. -/
noncomputable def c8Store : VectorStore :=
  ⟨[⟨"d1", "alpha", [1], none, none⟩,
    ⟨"d3", "gamma", [1/2], none, none⟩,
    ⟨"d2", "beta", [-1], none, none⟩], 1, .dot,
    some ⟨["content"],
      [⟨"d1", tokenize "alpha", none⟩,
        ⟨"d3", tokenize "gamma", none⟩,
        ⟨"d2", tokenize "beta", none⟩]⟩⟩

/-- Hybrid mode, weighted fusion, `alpha = 1`, `k = 5`. -/
noncomputable def c8HybOpts : HybridSearchOptions :=
  ⟨.hybrid, 5, some [1], some "beta", some 1, some .weighted⟩

/-- Vector-only mode with the same query and `k = 5`. -/
noncomputable def c8VecOpts : HybridSearchOptions :=
  ⟨.vector, 5, some [1], none, none, none⟩

/-- The vector sub-results `hybridSearch` hands to the fusion on `c8Store`
with query `[1]`. -/
noncomputable def c8Vec : List VectorSearchResult :=
  [⟨"d1", -1, 1, some (mergeContent none "alpha")⟩,
    ⟨"d3", -(1/2), 1/2, some (mergeContent none "gamma")⟩]

/-- Vector sub-results covering the same documents as `w8Kw`, with strictly
decreasing similarities. -/
noncomputable def w8Vec : List VectorSearchResult :=
  [⟨"a", -(9/10), 9/10, none⟩, ⟨"b", -(2/5), 2/5, none⟩]

/-- Keyword sub-results covering the same documents as `w8Vec`, with
strictly decreasing scores. -/
noncomputable def w8Kw : List BM25SearchResult :=
  [⟨"b", 3, none⟩, ⟨"a", 1, none⟩]

/-! ## Theorems -/

theorem dotprod_self (a : List ℝ) : dotprod a a = sumSquares a := by
  induction a with
  | nil => rfl
  | cons x xs ih =>
      simp only [dotprod, sumSquares, List.zipWith_cons_cons, List.map_cons,
        List.sum_cons] at ih ⊢
      rw [ih]

theorem sumSquares_nonneg (a : List ℝ) : 0 ≤ sumSquares a := by
  refine List.sum_nonneg ?_
  intro x hx
  obtain ⟨y, _, rfl⟩ := List.mem_map.mp hx
  exact mul_self_nonneg y

theorem sortAscBy_perm {α : Type} (key : α → ℝ) (l : List α) :
    List.Perm (sortAscBy key l) l :=
  List.perm_insertionSort _ l

theorem sortDescBy_perm {α : Type} (key : α → ℝ) (l : List α) :
    List.Perm (sortDescBy key l) l :=
  List.perm_insertionSort _ l

theorem sortAscBy_sorted {α : Type} (key : α → ℝ) (l : List α) :
    (sortAscBy key l).Pairwise (fun a b => key a ≤ key b) := by
  haveI : IsTotal α (fun a b => key a ≤ key b) := ⟨fun a b => le_total (key a) (key b)⟩
  haveI : IsTrans α (fun a b => key a ≤ key b) := ⟨fun _ _ _ h1 h2 => le_trans h1 h2⟩
  exact List.sorted_insertionSort _ l

theorem sortDescBy_sorted {α : Type} (key : α → ℝ) (l : List α) :
    (sortDescBy key l).Pairwise (fun a b => key b ≤ key a) := by
  haveI : IsTotal α (fun a b => key b ≤ key a) := ⟨fun a b => le_total (key b) (key a)⟩
  haveI : IsTrans α (fun a b => key b ≤ key a) := ⟨fun _ _ _ h1 h2 => le_trans h2 h1⟩
  exact List.sorted_insertionSort _ l

/-- C4 (counterexample): the claim "for every pair of identical vectors the
cosine distance is 0 and the similarity is 1" fails at the zero vector
`[0]`: both norms are 0, so the `denom === 0` branch of `cosineDistance`
returns distance 1, hence similarity `1 - distance = 0`. -/
theorem c4_counterexample :
    cosineDistance [(0 : ℝ)] [(0 : ℝ)] none none ≠ 0 ∧
      1 - cosineDistance [(0 : ℝ)] [(0 : ℝ)] none none ≠ 1 := by
  have h : cosineDistance [(0 : ℝ)] [(0 : ℝ)] none none = 1 := by
    simp [cosineDistance, dotprod, sumSquares]
  rw [h]
  norm_num

/-- C4 (amended): for every pair of identical vectors whose sum of squared
components is nonzero (equivalently, nonzero norm), the cosine distance
computed by the store is exactly 0 and the cosine similarity
`1 - distance` is exactly 1, whether the norms are recomputed (`none`)
or taken from the cache populated by `add` (`some (computeNorm a)`). -/
theorem c4_cosine_identical (a : List ℝ) (na nb : Option ℝ)
    (h : sumSquares a ≠ 0)
    (hna : na = none ∨ na = some (computeNorm a))
    (hnb : nb = none ∨ nb = some (computeNorm a)) :
    cosineDistance a a na nb = 0 ∧ 1 - cosineDistance a a na nb = 1 := by
  have hs : 0 ≤ sumSquares a := sumSquares_nonneg a
  have hdenom : Real.sqrt (sumSquares a) * Real.sqrt (sumSquares a) = sumSquares a :=
    Real.mul_self_sqrt hs
  have hmain : cosineDistance a a na nb = 0 := by
    rcases hna with rfl | rfl <;> rcases hnb with rfl | rfl <;>
    · simp only [cosineDistance, computeNorm]
      rw [dotprod_self, hdenom, if_neg h, div_self h]
      norm_num
  exact ⟨hmain, by rw [hmain]; norm_num⟩

/-- Witness for `c4_cosine_identical` at the concrete vector `[1]`. -/
theorem c4_witness :
    sumSquares [(1 : ℝ)] ≠ 0 ∧ cosineDistance [(1 : ℝ)] [(1 : ℝ)] none none = 0 := by
  have h : sumSquares [(1 : ℝ)] ≠ 0 := by norm_num [sumSquares]
  exact ⟨h, (c4_cosine_identical [(1 : ℝ)] none none h (Or.inl rfl) (Or.inl rfl)).1⟩

/-! ### C2: add with a mismatched dimension -/

/-- C2: `add` with a document whose vector length differs from the
configured dimensions always throws the dimension-mismatch error, and the
store object after the call (`addPost`) is completely unchanged — the same
document list (hence every previously stored content, vector and metadata)
and the same size — because the validation precedes every mutation. -/
theorem c2_add_dim_mismatch (s : VectorStore) (doc : VectorDocument)
    (h : doc.vector.length ≠ s.dimensions) :
    s.add doc =
        .error s!"Dimension mismatch: expected {s.dimensions}, got {doc.vector.length}" ∧
      s.addPost doc = s ∧ (s.addPost doc).size = s.size ∧
      (s.addPost doc).documents = s.documents := by
  have he : s.add doc =
      Except.error s!"Dimension mismatch: expected {s.dimensions}, got {doc.vector.length}" := by
    unfold VectorStore.add
    rw [if_pos h]
  have hp : s.addPost doc = s := by
    unfold VectorStore.addPost
    rw [he]
  exact ⟨he, hp, by rw [hp], by rw [hp]⟩

/-- Witness for `c2_add_dim_mismatch` at a concrete store and document. -/
theorem c2_witness :
    (wDoc2.vector.length ≠ w9Store.dimensions) ∧ w9Store.addPost wDoc2 = w9Store := by
  have h : wDoc2.vector.length ≠ w9Store.dimensions := by
    simp [wDoc2, w9Store]
  exact ⟨h, (c2_add_dim_mismatch w9Store wDoc2 h).2.1⟩

/-! ### C9: add as an id-keyed upsert -/

theorem find?_map_upsert {α : Type} (key : α → String) (x : α) :
    ∀ l : List α, l.any (fun e => key e == key x) = true →
      (l.map (fun e => if key e == key x then x else e)).find?
          (fun e => key e == key x) = some x := by
  intro l
  induction l with
  | nil => intro h; simp at h
  | cons e es ih =>
      intro h
      rw [List.map_cons]
      by_cases he : (key e == key x) = true
      · rw [if_pos he]
        exact List.find?_cons_of_pos _ (by simp)
      · rw [if_neg he]
        rw [List.find?_cons_of_neg _ (by simpa using he)]
        exact ih (by simpa [List.any_cons, he] using h)

/-- C9: inserting a document with matching vector length whose id is
already stored succeeds, leaves the size and the id sequence unchanged,
and replaces the stored document with the new content, vector and metadata
(an upsert, never a duplication). -/
theorem c9_add_upsert (s : VectorStore) (doc : VectorDocument)
    (hlen : doc.vector.length = s.dimensions)
    (hid : s.documents.any (fun e => e.id == doc.id) = true) :
    s.add doc = .ok (s.addPost doc) ∧ (s.addPost doc).size = s.size ∧
      (s.addPost doc).get doc.id = some ⟨doc.id, doc.content, doc.vector, doc.metadata⟩ ∧
      (s.addPost doc).documents.map (fun d => d.id) = s.documents.map (fun d => d.id) := by
  have hne : ¬ doc.vector.length ≠ s.dimensions := fun hc => hc hlen
  have hid2 : (s.documents.any
      (fun e => (fun d => d.id) e == (fun d => d.id) (storedOf s.distance doc))) = true := hid
  have hdocs : mapSet (fun d => d.id) s.documents (storedOf s.distance doc) =
      s.documents.map (fun e => if e.id == doc.id then storedOf s.distance doc else e) := by
    unfold mapSet
    rw [if_pos hid2]
    rfl
  have he : s.add doc = Except.ok { s with
      documents := s.documents.map
        (fun e => if e.id == doc.id then storedOf s.distance doc else e),
      bm25Index := match s.bm25Index with
        | some idx => some (idx.addDocument doc.id doc.content doc.metadata)
        | none => none } := by
    unfold VectorStore.add
    rw [if_neg hne, hdocs]
  have hpost : s.addPost doc = { s with
      documents := s.documents.map
        (fun e => if e.id == doc.id then storedOf s.distance doc else e),
      bm25Index := match s.bm25Index with
        | some idx => some (idx.addDocument doc.id doc.content doc.metadata)
        | none => none } := by
    unfold VectorStore.addPost
    rw [he]
  refine ⟨by rw [he, hpost], ?_, ?_, ?_⟩
  · rw [hpost]
    show (s.documents.map _).length = s.documents.length
    exact List.length_map _ _
  · rw [hpost]
    show ((s.documents.map
        (fun e => if e.id == doc.id then storedOf s.distance doc else e)).find?
          (fun d => d.id == doc.id)).map toVectorDocument = _
    rw [show (s.documents.map
        (fun e => if e.id == doc.id then storedOf s.distance doc else e)).find?
          (fun d => d.id == doc.id) = some (storedOf s.distance doc) from
      find?_map_upsert (fun d => d.id) (storedOf s.distance doc) s.documents hid]
    rfl
  · rw [hpost]
    show (s.documents.map
        (fun e => if e.id == doc.id then storedOf s.distance doc else e)).map
          (fun d => d.id) = s.documents.map (fun d => d.id)
    rw [List.map_map]
    refine List.map_congr_left ?_
    intro e _
    by_cases hc : (e.id == doc.id) = true
    · show (if e.id == doc.id then storedOf s.distance doc else e).id = e.id
      rw [if_pos hc]
      exact (eq_of_beq hc).symm
    · show (if e.id == doc.id then storedOf s.distance doc else e).id = e.id
      rw [if_neg hc]

/-- Witness for `c9_add_upsert` at a concrete store and document. -/
theorem c9_witness :
    (w9Doc.vector.length = w9Store.dimensions) ∧
      (w9Store.documents.any (fun e => e.id == w9Doc.id) = true) ∧
      (w9Store.addPost w9Doc).size = w9Store.size := by
  have h1 : w9Doc.vector.length = w9Store.dimensions := by simp [w9Doc, w9Store]
  have h2 : w9Store.documents.any (fun e => e.id == w9Doc.id) = true := by
    simp [w9Doc, w9Store]
  exact ⟨h1, h2, (c9_add_upsert w9Store w9Doc h1 h2).2.1⟩

/-! ### C3: export / import round trip -/

theorem importLoop (dims : ℕ) (dist : DistanceMetric) :
    ∀ (ds : List VectorDocument) (pre : List StoredDocument),
      (∀ d ∈ ds, d.vector.length = dims) →
      (∀ d ∈ ds, pre.any (fun e => e.id == d.id) = false) →
      (ds.map (fun d => d.id)).Nodup →
      List.foldlM (fun st doc => VectorStore.add st doc)
          (⟨pre, dims, dist, none⟩ : VectorStore) ds =
        Except.ok ⟨pre ++ ds.map (storedOf dist), dims, dist, none⟩ := by
  intro ds
  induction ds with
  | nil =>
      intro pre _ _ _
      rw [List.map_nil, List.append_nil]
      rfl
  | cons d ds ih =>
      intro pre hlen hfresh hnodup
      have hd : d.vector.length = dims := hlen d (List.mem_cons_self _ _)
      have hfr : pre.any (fun e => e.id == d.id) = false := hfresh d (List.mem_cons_self _ _)
      have hfr2 : ¬ (pre.any
          (fun e => (fun x => x.id) e == (fun x => x.id) (storedOf dist d))) = true := by
        simpa using hfr
      have hadd : VectorStore.add (⟨pre, dims, dist, none⟩ : VectorStore) d =
          Except.ok ⟨pre ++ [storedOf dist d], dims, dist, none⟩ := by
        unfold VectorStore.add
        rw [if_neg (show ¬ d.vector.length ≠ dims from fun hc => hc hd)]
        unfold mapSet
        rw [if_neg hfr2]
      rw [List.foldlM_cons, hadd]
      show List.foldlM (fun st doc => VectorStore.add st doc)
          (⟨pre ++ [storedOf dist d], dims, dist, none⟩ : VectorStore) ds = _
      have hnd := List.nodup_cons.mp hnodup
      have hres := ih (pre ++ [storedOf dist d])
        (fun x hx => hlen x (List.mem_cons_of_mem _ hx))
        (fun x hx => by
          rw [List.any_append]
          have h1 : pre.any (fun e => e.id == x.id) = false :=
            hfresh x (List.mem_cons_of_mem _ hx)
          have h2 : ((storedOf dist d).id == x.id) = false := by
            refine beq_eq_false_iff_ne.mpr ?_
            show d.id ≠ x.id
            intro hcontra
            exact hnd.1 (by
              show d.id ∈ List.map (fun y => y.id) ds
              rw [hcontra]
              exact List.mem_map_of_mem (fun y => y.id) hx)
          simp [h1, h2])
        hnd.2
      rw [hres, List.append_assoc, List.singleton_append, List.map_cons]


/-- C3: for every store whose documents satisfy the invariants `add`
maintains (vector lengths equal to the configured dimensions, unique ids),
importing its export succeeds and reproduces the dimensions, distance
metric, size, and the full per-document id/content/vector/metadata
sequence (`export` of the reimported store equals the original export). -/
theorem c3_export_import_roundtrip (s : VectorStore)
    (hlen : ∀ d ∈ s.documents, d.vector.length = s.dimensions)
    (hnodup : (s.documents.map (fun d => d.id)).Nodup) :
    VectorStore.importStore s.export = .ok (importPost s.export) ∧
      (importPost s.export).dimensions = s.dimensions ∧
      (importPost s.export).distance = s.distance ∧
      (importPost s.export).size = s.size ∧
      (importPost s.export).export = s.export := by
  have hrun : VectorStore.importStore s.export =
      Except.ok ⟨[] ++ (s.documents.map toVectorDocument).map (storedOf s.distance),
        s.dimensions, s.distance, none⟩ := by
    unfold VectorStore.importStore VectorStore.export
    exact importLoop s.dimensions s.distance (s.documents.map toVectorDocument) []
      (fun d hd => by
        obtain ⟨p, hp, rfl⟩ := List.mem_map.mp hd
        exact hlen p hp)
      (fun d _ => rfl)
      (by
        rw [List.map_map]
        exact hnodup)
  have hpost : importPost s.export =
      ⟨[] ++ (s.documents.map toVectorDocument).map (storedOf s.distance),
        s.dimensions, s.distance, none⟩ := by
    unfold importPost
    rw [hrun]
  have hdocs : ((s.documents.map toVectorDocument).map (storedOf s.distance)).map
      toVectorDocument = s.documents.map toVectorDocument := by
    rw [List.map_map, List.map_map]
    refine List.map_congr_left ?_
    intro p _
    rfl
  refine ⟨by rw [hrun, hpost], by rw [hpost], by rw [hpost], ?_, ?_⟩
  · rw [hpost]
    show ([] ++ (s.documents.map toVectorDocument).map (storedOf s.distance)).length =
      s.documents.length
    simp
  · rw [hpost]
    unfold VectorStore.export
    rw [List.nil_append, hdocs]

/-- Witness for `c3_export_import_roundtrip` at a concrete store. -/
theorem c3_witness :
    (∀ d ∈ w9Store.documents, d.vector.length = w9Store.dimensions) ∧
      ((w9Store.documents.map (fun d => d.id)).Nodup) ∧
      (importPost w9Store.export).export = w9Store.export := by
  have h1 : ∀ d ∈ w9Store.documents, d.vector.length = w9Store.dimensions := by
    intro d hd
    simp only [w9Store, List.mem_singleton] at hd
    rw [hd]
    rfl
  have h2 : (w9Store.documents.map (fun d => d.id)).Nodup := by
    simp [w9Store]
  exact ⟨h1, h2, (c3_export_import_roundtrip w9Store h1 h2).2.2.2.2⟩

/-! ### C1: search result count and ordering -/

theorem scoreDoc_fact (m : DistanceMetric) (qv : List ℝ) (qn : Option ℝ) (minSim : ℝ)
    (doc : StoredDocument) (r : SearchResult)
    (h : scoreDoc m qv qn minSim doc = some r) :
    r.similarity = simFromDist m r.distance ∧ (m = .euclidean → 0 ≤ r.distance) := by
  simp only [scoreDoc] at h
  split at h
  · cases h
  · cases h
    refine ⟨rfl, ?_⟩
    intro hm
    subst hm
    show 0 ≤ calculateDistance .euclidean qv doc.vector qn doc.norm
    unfold calculateDistance euclideanDistance
    exact Real.sqrt_nonneg _

theorem simFromDist_antitone (m : DistanceMetric) (d1 d2 : ℝ)
    (h1 : m = .euclidean → 0 ≤ d1) (h2 : m = .euclidean → 0 ≤ d2)
    (hle : d1 ≤ d2) : simFromDist m d2 ≤ simFromDist m d1 := by
  cases m with
  | cosine =>
      simp [simFromDist]
      linarith
  | euclidean =>
      have e1 := h1 rfl
      have e2 := h2 rfl
      simp only [simFromDist, reduceCtorEq, if_neg, ite_false]
      have hpos : (0 : ℝ) < 1 + d1 := by linarith
      exact one_div_le_one_div_of_le hpos (by linarith)
  | dot =>
      simp [simFromDist]
      linarith

/-- C1: for every store and every query vector of the configured dimension,
`search` succeeds and returns at most `min(k, documentCount)` results,
sorted by nondecreasing distance — equivalently by nonincreasing
similarity, since under each metric the reported similarity is an antitone
function of the reported distance. -/
theorem c1_search_bounded_sorted (s : VectorStore) (qv : List ℝ) (k : ℕ) (minSim : ℝ)
    (hq : qv.length = s.dimensions) :
    s.search qv k minSim = .ok (searchOutput s qv k minSim) ∧
      (searchOutput s qv k minSim).length ≤ min k s.size ∧
      (searchOutput s qv k minSim).Pairwise (fun a b => a.distance ≤ b.distance) ∧
      (searchOutput s qv k minSim).Pairwise (fun a b => b.similarity ≤ a.similarity) := by
  have hne : ¬ qv.length ≠ s.dimensions := fun hc => hc hq
  by_cases hempty : s.documents.length = 0
  · have he : s.search qv k minSim = .ok [] := by
      unfold VectorStore.search
      rw [if_neg hne, if_pos hempty]
    have ho : searchOutput s qv k minSim = [] := by
      unfold searchOutput
      rw [he]
    rw [he, ho]
    simp
  · set qn := (if s.distance = .cosine then some (computeNorm qv) else none) with hqn
    set results := s.documents.filterMap (scoreDoc s.distance qv qn minSim) with hres
    set sorted := sortAscBy (fun r => r.distance) results with hsor
    have he : s.search qv k minSim = .ok (sorted.take (min k sorted.length)) := by
      unfold VectorStore.search
      rw [if_neg hne, if_neg hempty]
    have ho : searchOutput s qv k minSim = sorted.take (min k sorted.length) := by
      unfold searchOutput
      rw [he]
    have hlen : (sorted.take (min k sorted.length)).length ≤ min k s.size := by
      rw [List.length_take]
      have h1 : sorted.length = results.length :=
        (sortAscBy_perm (fun r => r.distance) results).length_eq
      have h2 : results.length ≤ s.documents.length := List.length_filterMap_le _ _
      have h3 : s.size = s.documents.length := rfl
      omega
    have hdist : (sorted.take (min k sorted.length)).Pairwise
        (fun a b => a.distance ≤ b.distance) :=
      (sortAscBy_sorted (fun r => r.distance) results).sublist (List.take_sublist _ _)
    have hfact : ∀ r ∈ sorted.take (min k sorted.length),
        r.similarity = simFromDist s.distance r.distance ∧
          (s.distance = .euclidean → 0 ≤ r.distance) := by
      intro r hr
      have hr1 : r ∈ results :=
        ((sortAscBy_perm (fun x => x.distance) results).mem_iff).mp (List.mem_of_mem_take hr)
      obtain ⟨doc, _, hsc⟩ := List.mem_filterMap.mp hr1
      exact scoreDoc_fact _ _ _ _ _ _ hsc
    have hsim : (sorted.take (min k sorted.length)).Pairwise
        (fun a b => b.similarity ≤ a.similarity) := by
      refine List.Pairwise.imp_of_mem ?_ hdist
      intro a b ha hb hab
      have fa := hfact a ha
      have fb := hfact b hb
      rw [fa.1, fb.1]
      exact simFromDist_antitone s.distance a.distance b.distance fa.2 fb.2 hab
    rw [ho]
    exact ⟨he, hlen, hdist, hsim⟩

/-- Witness for `c1_search_bounded_sorted` at a concrete store and query. -/
theorem c1_witness :
    (([(1 : ℝ)]).length = w9Store.dimensions) ∧
      (searchOutput w9Store [(1 : ℝ)] 1 0).length ≤ min 1 w9Store.size := by
  have h : ([(1 : ℝ)]).length = w9Store.dimensions := by
    simp [w9Store]
  exact ⟨h, (c1_search_bounded_sorted w9Store [(1 : ℝ)] 1 0 h).2.1⟩

/-! ### C5: addMessage is a no-op on system / blank messages -/

theorem mem_mapSet {α : Type} (key : α → String) (l : List α) (x p : α)
    (hp : p ∈ mapSet key l x) : p = x ∨ p ∈ l := by
  unfold mapSet at hp
  by_cases h : (l.any fun e => key e == key x) = true
  · rw [if_pos h] at hp
    obtain ⟨q, hq, hpq⟩ := List.mem_map.mp hp
    by_cases hc : (key q == key x) = true
    · rw [if_pos hc] at hpq
      exact Or.inl hpq.symm
    · rw [if_neg hc] at hpq
      exact Or.inr (hpq ▸ hq)
  · rw [if_neg h] at hp
    rcases List.mem_append.mp hp with h1 | h1
    · exact Or.inr h1
    · exact Or.inl (List.mem_singleton.mp h1)

theorem lookup_setEntry (reg : Registry) (key : String) (e : SessionEntry) :
    lookupEntry (setEntry reg key e) key = some e := by
  unfold lookupEntry setEntry mapSet
  by_cases h : (reg.any fun p => p.1 == (key, e).1) = true
  · rw [if_pos h]
    rw [show List.find? (fun p => p.1 == key)
        (reg.map fun p => if p.1 == (key, e).1 then (key, e) else p) = some (key, e) from
      find?_map_upsert (fun p => p.1) (key, e) reg h]
    rfl
  · rw [if_neg h]
    have hend : List.find? (fun p => p.1 == key) (reg ++ [(key, e)]) = some (key, e) := by
      rw [List.find?_append]
      have hnone : reg.find? (fun p => p.1 == key) = none := by
        refine List.find?_eq_none.mpr ?_
        intro x hx
        intro hpred
        exact h (List.any_eq_true.mpr ⟨x, hx, hpred⟩)
      rw [hnone]
      simp
    rw [hend]
    rfl

/-- C5: for a system-role or blank-content (whitespace-only) message,
`addMessage` returns immediately after the cache access: it performs zero
Embedder invocations, throws nothing, persists nothing (static data is
returned unchanged), adds no document and appends no message — the
registry is exactly what `getStore` alone produces (an absent session
entry is created empty; an existing one only has `lastAccess` refreshed,
its store and messages intact). -/
theorem c5_addMessage_noop (cfg : RAGConfig) (prov : EmbedCapability) (hasEF : Bool)
    (workflowId : String) (reg : Registry) (sd : StaticData) (now : ℤ)
    (msg : Message) (docId : String)
    (h : msg.role = .system ∨ msg.content.trim = "") :
    addMessage cfg prov hasEF workflowId reg sd now msg docId =
        ⟨(getStore cfg hasEF workflowId reg sd now).1, sd, 0, none⟩ ∧
      (∀ e0, lookupEntry (cleanupExpiredStores reg now)
          (storeKey workflowId cfg.sessionId) = some e0 →
        lookupEntry (addMessage cfg prov hasEF workflowId reg sd now msg docId).registry
            (storeKey workflowId cfg.sessionId) = some ⟨e0.store, e0.messages, now⟩) := by
  rcases hg : getStore cfg hasEF workflowId reg sd now with ⟨reg1, entry⟩
  have hmain : addMessage cfg prov hasEF workflowId reg sd now msg docId =
      ⟨reg1, sd, 0, none⟩ := by
    unfold addMessage
    rw [hg]
    show (if msg.role = .system ∨ msg.content.trim = ""
      then (⟨reg1, sd, 0, none⟩ : AddMessageResult) else _) = _
    rw [if_pos h]
  constructor
  · rw [hmain]
  · intro e0 he0
    rw [hmain]
    show lookupEntry reg1 (storeKey workflowId cfg.sessionId) = _
    have hreg1 : reg1 = setEntry (cleanupExpiredStores reg now)
        (storeKey workflowId cfg.sessionId) ⟨e0.store, e0.messages, now⟩ := by
      have hthis := hg
      simp only [getStore] at hthis
      rw [he0] at hthis
      exact (congrArg Prod.fst hthis).symm
    rw [hreg1]
    exact lookup_setEntry _ _ _

/-- Witness for `c5_addMessage_noop` at a concrete system message. -/
theorem c5_witness :
    (w5Msg.role = .system ∨ w5Msg.content.trim = "") ∧
      addMessage wCfg none false "wf" [] [] 5 w5Msg "id1" =
        ⟨(getStore wCfg false "wf" [] [] 5).1, [], 0, none⟩ := by
  have h : w5Msg.role = .system ∨ w5Msg.content.trim = "" := Or.inl rfl
  exact ⟨h, (c5_addMessage_noop wCfg none false "wf" [] [] 5 w5Msg "id1" h).1⟩

/-! ### C6: corrupt persisted blobs degrade to a fresh empty session -/

/-- C6: when the session has no live cache entry and its persisted blob is
corrupt or schema-incompatible (not a string, unparsable JSON, wrong shape,
or documents mismatching the stored dimensions), the restore attempt
returns `none` — the internal catch surfaces no error — and the cache
access creates a fresh empty session entry (empty store of the configured
dimensions, no messages, `lastAccess = now`). -/
theorem c6_corrupt_blob_fresh_entry (cfg : RAGConfig) (hasEF : Bool) (workflowId : String)
    (reg : Registry) (sd : StaticData) (now : ℤ)
    (hpersist : cfg.persistToStaticData = true) (hEF : hasEF = true)
    (hmiss : lookupEntry (cleanupExpiredStores reg now)
      (storeKey workflowId cfg.sessionId) = none)
    (hcorrupt : corruptBlob (lookupStatic sd (ragKey cfg.sessionId))) :
    loadFromStaticData hasEF sd cfg.sessionId now = none ∧
      (getStore cfg hasEF workflowId reg sd now).2 =
        ⟨(mkVectorStore cfg.dimensions (some .cosine)).configureBM25 ["content"], [], now⟩ ∧
      (getStore cfg hasEF workflowId reg sd now).1 =
        setEntry (cleanupExpiredStores reg now) (storeKey workflowId cfg.sessionId)
          ⟨(mkVectorStore cfg.dimensions (some .cosine)).configureBM25 ["content"], [], now⟩ := by
  have hload : loadFromStaticData hasEF sd cfg.sessionId now = none := by
    unfold loadFromStaticData
    rw [hEF]
    show (match lookupStatic sd (ragKey cfg.sessionId) with
      | some (.jsonString (some data)) =>
          match VectorStore.importStore data.store with
          | .ok store => some (⟨store.configureBM25 ["content"], data.messages, now⟩ : SessionEntry)
          | .error _ => none
      | _ => none) = none
    rcases hv : lookupStatic sd (ragKey cfg.sessionId) with _ | v
    · rfl
    · rw [hv] at hcorrupt
      cases v with
      | nonString => rfl
      | jsonString parsed =>
          cases parsed with
          | none => rfl
          | some p =>
              obtain ⟨e, he⟩ := hcorrupt
              simp [he]
  have hgs : getStore cfg hasEF workflowId reg sd now =
      (setEntry (cleanupExpiredStores reg now) (storeKey workflowId cfg.sessionId)
          ⟨(mkVectorStore cfg.dimensions (some .cosine)).configureBM25 ["content"], [], now⟩,
        ⟨(mkVectorStore cfg.dimensions (some .cosine)).configureBM25 ["content"], [], now⟩) := by
    simp only [getStore]
    rw [hmiss, hload, hpersist, hEF]
    rfl
  exact ⟨hload, by rw [hgs], by rw [hgs]⟩

/-- Witness for `c6_corrupt_blob_fresh_entry` at a concrete unparsable
blob. -/
theorem c6_witness :
    (w6Cfg.persistToStaticData = true) ∧
      (lookupEntry (cleanupExpiredStores [] 5) (storeKey "wf" w6Cfg.sessionId) = none) ∧
      corruptBlob (lookupStatic w6Static (ragKey w6Cfg.sessionId)) ∧
      loadFromStaticData true w6Static w6Cfg.sessionId 5 = none := by
  have h1 : w6Cfg.persistToStaticData = true := rfl
  have h2 : lookupEntry (cleanupExpiredStores [] 5) (storeKey "wf" w6Cfg.sessionId) = none :=
    rfl
  have h3 : corruptBlob (lookupStatic w6Static (ragKey w6Cfg.sessionId)) := by
    show corruptBlob (lookupStatic w6Static (ragKey "s1"))
    simp [corruptBlob, lookupStatic, w6Static, ragKey]
  exact ⟨h1, h2, h3,
    (c6_corrupt_blob_fresh_entry w6Cfg true "wf" [] w6Static 5 h1 rfl h2 h3).1⟩

/-! ### C7: TTL eviction on access, unconditional clear -/

/-- C7: after any cache access (`getStore`, through which every `RAGMemory`
operation goes), no registry entry's idle time `now - lastAccess` exceeds
the 1-hour TTL — the access first evicts every expired entry of every
session and the touched entry gets `lastAccess = now`; and `clear` removes
the calling session's entry unconditionally, regardless of age. -/
theorem c7_ttl_eviction_and_clear :
    (∀ (cfg : RAGConfig) (hasEF : Bool) (workflowId : String) (reg : Registry)
        (sd : StaticData) (now : ℤ) (p : String × SessionEntry),
        p ∈ (getStore cfg hasEF workflowId reg sd now).1 →
          now - p.2.lastAccess ≤ STORE_TTL) ∧
      (∀ (cfg : RAGConfig) (hasEF : Bool) (workflowId : String) (reg : Registry)
        (sd : StaticData),
        lookupEntry (clearMemory cfg hasEF workflowId reg sd).1
          (storeKey workflowId cfg.sessionId) = none) := by
  constructor
  · intro cfg hasEF workflowId reg sd now p hp
    have main : ∀ (e : SessionEntry), e.lastAccess = now →
        p ∈ setEntry (cleanupExpiredStores reg now) (storeKey workflowId cfg.sessionId) e →
        now - p.2.lastAccess ≤ STORE_TTL := by
      intro e hel hpe
      rcases mem_mapSet _ _ _ _ hpe with h1 | h1
      · rw [h1]
        show now - e.lastAccess ≤ STORE_TTL
        rw [hel]
        norm_num [STORE_TTL]
      · have hmem := List.mem_filter.mp h1
        have hdec : ¬ (now - p.2.lastAccess > STORE_TTL) := by
          simpa using hmem.2
        omega
    simp only [getStore] at hp
    rcases hl : lookupEntry (cleanupExpiredStores reg now)
        (storeKey workflowId cfg.sessionId) with _ | entry
    · rw [hl] at hp
      rcases hld : (if cfg.persistToStaticData && hasEF then
          loadFromStaticData hasEF sd cfg.sessionId now else none) with _ | entry2
      · rw [hld] at hp
        exact main _ rfl hp
      · rw [hld] at hp
        exact main _ rfl hp
    · rw [hl] at hp
      exact main _ rfl hp
  · intro cfg hasEF workflowId reg sd
    show (((clearMemory cfg hasEF workflowId reg sd).1).find?
      (fun p => p.1 == storeKey workflowId cfg.sessionId)).map (fun p => p.2) = none
    have hnone : ((clearMemory cfg hasEF workflowId reg sd).1).find?
        (fun p => p.1 == storeKey workflowId cfg.sessionId) = none := by
      refine List.find?_eq_none.mpr ?_
      intro x hx
      have hmem := (List.mem_filter.mp hx).2
      simpa using hmem
    rw [hnone]
    rfl

/-- Witness for `c7_ttl_eviction_and_clear`: the entry created by an access
to an empty registry, and a concrete `clear`. -/
theorem c7_witness :
    ((storeKey "wf" "s1", w7Entry) ∈ (getStore wCfg false "wf" [] [] 5).1) ∧
      ((5 : ℤ) - w7Entry.lastAccess ≤ STORE_TTL) ∧
      lookupEntry (clearMemory wCfg false "wf" [] []).1 (storeKey "wf" wCfg.sessionId) =
        none := by
  have hm : (storeKey "wf" "s1", w7Entry) ∈ (getStore wCfg false "wf" [] [] 5).1 := by
    unfold getStore wCfg w7Entry
    simp [cleanupExpiredStores, lookupEntry, setEntry, mapSet]
  exact ⟨hm, c7_ttl_eviction_and_clear.1 wCfg false "wf" [] [] 5 _ hm,
    c7_ttl_eviction_and_clear.2 wCfg false "wf" [] []⟩

/-! ### C10: getContext embeds exactly once, before any search -/

theorem embedCalls_of_match (reg1 : Registry) (msgs : List Message) (minSim : ℝ)
    (S : Except String (List RelevantHit)) :
    (match S with
      | .error e => (⟨reg1, 1, .error e⟩ : GetContextResult)
      | .ok hits => ⟨reg1, 1, .ok ⟨msgs,
          if minSim ≠ 0 then hits.filter (fun h => decide (minSim ≤ h.similarity))
          else hits⟩⟩).embedCalls = 1 := by
  cases S <;> rfl

/-- C10: `getContext` embeds the query exactly once — before any search and
independently of the configured mode or of the index being empty — and so,
when the provider lacks the `embed` capability, it fails with the
capability error in every mode, keyword mode included, performing zero
Embedder invocations. -/
theorem c10_getContext_embeds_once (cfg : RAGConfig) (prov : EmbedCapability) (hasEF : Bool)
    (workflowId : String) (reg : Registry) (sd : StaticData) (now : ℤ)
    (query : String) (kOpt : Option ℕ) :
    (∀ f, prov = some f →
        (getContext cfg prov hasEF workflowId reg sd now query kOpt).embedCalls = 1) ∧
      (prov = none →
        (getContext cfg prov hasEF workflowId reg sd now query kOpt).embedCalls = 0 ∧
        (getContext cfg prov hasEF workflowId reg sd now query kOpt).result =
          .error capabilityErrorMsg) := by
  rcases hg : getStore cfg hasEF workflowId reg sd now with ⟨reg1, entry⟩
  constructor
  · intro f hf
    subst hf
    unfold getContext
    rw [hg]
    exact embedCalls_of_match reg1 entry.messages cfg.minSimilarity _
  · intro hp
    subst hp
    unfold getContext
    rw [hg]
    exact ⟨rfl, rfl⟩

/-- Witness for `c10_getContext_embeds_once` with and without the embed
capability. -/
theorem c10_witness :
    (getContext wCfg (some (fun _ => [1])) false "wf" [] [] 5 "q" none).embedCalls = 1 ∧
      (getContext wCfg none false "wf" [] [] 5 "q" none).result =
        .error capabilityErrorMsg := by
  exact ⟨(c10_getContext_embeds_once wCfg (some (fun _ => [1]))
      false "wf" [] [] 5 "q" none).1 _ rfl,
    ((c10_getContext_embeds_once wCfg none false "wf" [] [] 5 "q" none).2 rfl).2⟩

/-! ### C8: weighted fusion at the extreme alpha values -/

theorem c8_score_d1 : scoreDoc .dot [(1 : ℝ)] none 0 ⟨"d1", "alpha", [1], none, none⟩ =
    some ⟨"d1", "alpha", -1, 1, none⟩ := by
  simp [scoreDoc, calculateDistance, dotProductDistance, dotprod, simFromDist]

theorem c8_score_d3 : scoreDoc .dot [(1 : ℝ)] none 0 ⟨"d3", "gamma", [1/2], none, none⟩ =
    some ⟨"d3", "gamma", -(1/2), 1/2, none⟩ := by
  simp [scoreDoc, calculateDistance, dotProductDistance, dotprod, simFromDist]

theorem c8_score_d2 : scoreDoc .dot [(1 : ℝ)] none 0 ⟨"d2", "beta", [-1], none, none⟩ =
    none := by
  simp [scoreDoc, calculateDistance, dotProductDistance, dotprod, simFromDist]

theorem c8_search_eval (k : ℕ) (hk : 2 ≤ k) : c8Store.search [(1 : ℝ)] k 0 = .ok
    [⟨"d1", "alpha", -1, 1, none⟩, ⟨"d3", "gamma", -(1/2), 1/2, none⟩] := by
  unfold VectorStore.search
  rw [if_neg (show ¬ ([(1 : ℝ)].length ≠ c8Store.dimensions) by norm_num [c8Store])]
  rw [if_neg (show ¬ (c8Store.documents.length = 0) by norm_num [c8Store])]
  simp only [c8Store, List.filterMap_cons, c8_score_d1, c8_score_d3, c8_score_d2,
    reduceCtorEq, if_false, ite_false]
  norm_num [sortAscBy]
  omega

theorem c8_keyword_ids : (c8Store.keywordSearch "beta" 50).map (fun r => r.id) = ["d2"] := by
  show (BM25Index.search ⟨["content"],
    [⟨"d1", tokenize "alpha", none⟩,
      ⟨"d3", tokenize "gamma", none⟩,
      ⟨"d2", tokenize "beta", none⟩]⟩ "beta" 50).map (fun r => r.id) = ["d2"]
  simp only [BM25Index.search]
  rw [show (tokenize "beta").dedup = ["beta"] from by decide]
  rw [show List.filter (fun d => (["beta"].any (fun t => d.terms.contains t)))
      [(⟨"d1", tokenize "alpha", none⟩ : BM25Doc),
        ⟨"d3", tokenize "gamma", none⟩,
        ⟨"d2", tokenize "beta", none⟩] = [⟨"d2", tokenize "beta", none⟩] from by decide]
  simp [sortDescBy]

theorem hybridFusion_length (vec : List VectorSearchResult) (kw : List BM25SearchResult)
    (k : ℕ) (m : FusionMethod) (a : ℝ) :
    (hybridFusion vec kw k m a).length =
      min k (vec.length +
        (kw.filter (fun r => !(vec.any (fun v => v.id == r.id)))).length) := by
  unfold hybridFusion
  rw [List.length_take]
  congr 1
  rw [sortDescBy, List.length_insertionSort, List.length_map, List.length_append,
    List.length_map, List.length_map]

/-- C8 (counterexample): the claim fails on a concrete store and query —
with weighted fusion and `alpha = 1`, hybrid search returns three results
(the keyword-only document `d2` enters the fused list with a weight-0
keyword contribution), while the vector-only ranking has two results; the
two outputs therefore differ. -/
theorem c8_counterexample :
    resultLength (c8Store.hybridSearch c8HybOpts) = some 3 ∧
      resultLength (c8Store.hybridSearch c8VecOpts) = some 2 ∧
      c8Store.hybridSearch c8HybOpts ≠ c8Store.hybridSearch c8VecOpts := by
  have hl50 := c8_search_eval 50 (by norm_num)
  have hl5 := c8_search_eval 5 (by norm_num)
  have hhyb : c8Store.hybridSearch c8HybOpts = .ok (hybridFusion c8Vec
      (c8Store.keywordSearch "beta" 50) 5 .weighted 1) := by
    show (c8Store.search [(1 : ℝ)] (max (5 * 3) 50) 0).map (fun vres =>
        hybridFusion (vres.map (fun r => VectorSearchResult.mk r.id r.distance r.similarity
          (some (mergeContent r.metadata r.content))))
          (c8Store.keywordSearch "beta" (max (5 * 3) 50)) 5 .weighted 1) = _
    rw [show max (5 * 3) 50 = 50 from rfl, hl50]
    rfl
  have hvec : c8Store.hybridSearch c8VecOpts = .ok
      [⟨"d1", 1, some 1, none, some (mergeContent none "alpha")⟩,
        ⟨"d3", 1/2, some (1/2), none, some (mergeContent none "gamma")⟩] := by
    show (c8Store.search [(1 : ℝ)] 5 0).map (fun rs => rs.map (fun r =>
        HybridSearchResult.mk r.id r.similarity (some r.similarity) none
          (some (mergeContent r.metadata r.content)))) = _
    rw [hl5]
    rfl
  have hflen : ((c8Store.keywordSearch "beta" 50).filter
      (fun r => !(c8Vec.any (fun v => v.id == r.id)))).length = 1 := by
    have hm := congrArg (fun l : List String => (l.filter (fun i =>
        !(c8Vec.any (fun v => v.id == i)))).length) c8_keyword_ids
    simp only [List.filter_map, List.length_map] at hm
    exact hm.trans (by decide)
  have h3 : resultLength (c8Store.hybridSearch c8HybOpts) = some 3 := by
    rw [hhyb]
    show some (hybridFusion c8Vec (c8Store.keywordSearch "beta" 50) 5 .weighted 1).length =
      some 3
    rw [hybridFusion_length, hflen]
    rfl
  have h2 : resultLength (c8Store.hybridSearch c8VecOpts) = some 2 := by
    rw [hvec]
    rfl
  refine ⟨h3, h2, ?_⟩
  intro hcontra
  rw [hcontra, h2] at h3
  exact absurd h3 (by simp)

theorem foldl_max_init : ∀ (l : List ℝ) (b : ℝ), b ≤ l.foldl max b := by
  intro l
  induction l with
  | nil => intro b; exact le_refl b
  | cons a as ih =>
      intro b
      exact le_trans (le_max_left b a) (ih (max b a))

theorem foldl_max_mem : ∀ (l : List ℝ) (b x : ℝ), x ∈ l → x ≤ l.foldl max b := by
  intro l
  induction l with
  | nil => intro b x hx; cases hx
  | cons a as ih =>
      intro b x hx
      rcases List.mem_cons.mp hx with rfl | h
      · exact le_trans (le_max_right b x) (foldl_max_init as (max b x))
      · exact ih (max b a) x h

theorem foldl_min_init : ∀ (l : List ℝ) (b : ℝ), l.foldl min b ≤ b := by
  intro l
  induction l with
  | nil => intro b; exact le_refl b
  | cons a as ih =>
      intro b
      exact le_trans (ih (min b a)) (min_le_left b a)

theorem foldl_min_mem : ∀ (l : List ℝ) (b x : ℝ), x ∈ l → l.foldl min b ≤ x := by
  intro l
  induction l with
  | nil => intro b x hx; cases hx
  | cons a as ih =>
      intro b x hx
      rcases List.mem_cons.mp hx with rfl | h
      · exact le_trans (foldl_min_init as (min b x)) (min_le_right b x)
      · exact ih (min b a) x h

theorem le_listMax_of_mem {l : List ℝ} {x : ℝ} (hx : x ∈ l) : x ≤ listMax l := by
  cases l with
  | nil => cases hx
  | cons a as =>
      rcases List.mem_cons.mp hx with rfl | h
      · exact foldl_max_init as x
      · exact foldl_max_mem as a x h

theorem listMin_le_of_mem {l : List ℝ} {x : ℝ} (hx : x ∈ l) : listMin l ≤ x := by
  cases l with
  | nil => cases hx
  | cons a as =>
      rcases List.mem_cons.mp hx with rfl | h
      · exact foldl_min_init as x
      · exact foldl_min_mem as a x h

theorem listMin_le_listMax : ∀ (l : List ℝ), listMin l ≤ listMax l := by
  intro l
  cases l with
  | nil => exact le_refl 0
  | cons a as => exact le_trans (foldl_min_init as a) (foldl_max_init as a)

theorem minMaxNorm_le (l : List ℝ) {x y : ℝ} (hxy : x ≤ y) :
    minMaxNorm l x ≤ minMaxNorm l y := by
  unfold minMaxNorm
  rcases eq_or_lt_of_le (listMin_le_listMax l) with heq | hlt
  · rw [← heq, sub_self, div_zero, div_zero]
  · have hpos : 0 < listMax l - listMin l := by linarith
    exact (div_le_div_iff_of_pos_right hpos).mpr (by linarith)

theorem minMaxNorm_lt (l : List ℝ) {x y : ℝ} (hx : x ∈ l) (hy : y ∈ l) (hxy : x < y) :
    minMaxNorm l x < minMaxNorm l y := by
  have h1 : listMin l ≤ x := listMin_le_of_mem hx
  have h2 : y ≤ listMax l := le_listMax_of_mem hy
  have hpos : 0 < listMax l - listMin l := by linarith
  unfold minMaxNorm
  exact (div_lt_div_iff_of_pos_right hpos).mpr (by linarith)

theorem find?_id_self {α : Type} (key : α → String) :
    ∀ (l : List α), (l.map key).Nodup → ∀ x ∈ l,
      l.find? (fun r => key r == key x) = some x := by
  intro l
  induction l with
  | nil => intro _ x hx; cases hx
  | cons a as ih =>
      intro hnd x hx
      have hnd' : (key a :: as.map key).Nodup := by
        rw [List.map_cons] at hnd
        exact hnd
      have hnd2 := List.nodup_cons.mp hnd'
      rcases List.mem_cons.mp hx with rfl | hx2
      · exact List.find?_cons_of_pos _ (by simp)
      · have hne : (key a == key x) = false := by
          refine beq_eq_false_iff_ne.mpr ?_
          intro hc
          refine hnd2.1 ?_
          show key a ∈ as.map key
          rw [hc]
          exact List.mem_map_of_mem key hx2
        rw [List.find?_cons_of_neg _ (by simp [hne])]
        exact ih hnd2.2 x hx2

/-- A permutation between a nonstrictly descending list and a strictly
descending list (by the same real key) forces equality. -/
theorem sorted_perm_eq_of_strict {α : Type} (key : α → ℝ) :
    ∀ (l1 l2 : List α), List.Perm l1 l2 →
      l1.Pairwise (fun a b => key b ≤ key a) →
      l2.Pairwise (fun a b => key b < key a) → l1 = l2 := by
  intro l1
  induction l1 with
  | nil =>
      intro l2 hp _ _
      exact (List.Perm.eq_nil hp.symm).symm
  | cons a t1 ih =>
      intro l2 hp h1 h2
      cases l2 with
      | nil => exact List.Perm.eq_nil hp
      | cons b t2 =>
          have hab : a = b := by
            by_contra hne
            have ha2 : a ∈ b :: t2 := hp.mem_iff.mp (List.mem_cons_self _ _)
            have hat2 : a ∈ t2 := by
              rcases List.mem_cons.mp ha2 with h | h
              · exact absurd h hne
              · exact h
            have hb1 : b ∈ a :: t1 := hp.mem_iff.mpr (List.mem_cons_self _ _)
            have hbt1 : b ∈ t1 := by
              rcases List.mem_cons.mp hb1 with h | h
              · exact absurd h.symm hne
              · exact h
            have hlt : key a < key b := (List.pairwise_cons.mp h2).1 a hat2
            have hle : key b ≤ key a := (List.pairwise_cons.mp h1).1 b hbt1
            linarith
          subst hab
          rw [ih t2 hp.cons_inv (List.pairwise_cons.mp h1).2 (List.pairwise_cons.mp h2).2]

theorem fusionEntry_score_weighted_one (vec : List VectorSearchResult)
    (kw : List BM25SearchResult) (v : VectorSearchResult) (hv : v ∈ vec)
    (hnodup : (vec.map (fun r => r.id)).Nodup) :
    (fusionEntry vec kw .weighted 1 v.id).score =
      minMaxNorm (vec.map (fun r => r.similarity)) v.similarity := by
  unfold fusionEntry
  rw [show vec.find? (fun r => r.id == v.id) = some v from
    find?_id_self (fun r => r.id) vec hnodup v hv]
  simp

theorem fusionEntry_score_weighted_zero (vec : List VectorSearchResult)
    (kw : List BM25SearchResult) (r : BM25SearchResult) (hr : r ∈ kw)
    (hknodup : (kw.map (fun x => x.id)).Nodup) :
    (fusionEntry vec kw .weighted 0 r.id).score =
      minMaxNorm (kw.map (fun x => x.score)) r.score := by
  unfold fusionEntry
  rw [show kw.find? (fun x => x.id == r.id) = some r from
    find?_id_self (fun x => x.id) kw hknodup r hr]
  simp

/-- C8 (amended): over sub-search outputs that cover the same documents —
unique ids, both lists ranking the same id set, with strictly decreasing
scores, as the sub-searches produce them — weighted fusion with `alpha = 1`
reproduces exactly the vector ranking and with `alpha = 0` exactly the
keyword ranking (truncated to `k`). In general a document returned by only
one of the two sub-searches still enters the fused list with weight 0 for
the missing side, which is what the counterexample exhibits. -/
theorem c8_weighted_extremes (vec : List VectorSearchResult) (kw : List BM25SearchResult)
    (k : ℕ)
    (hperm : List.Perm (vec.map (fun r => r.id)) (kw.map (fun r => r.id)))
    (hnodup : (vec.map (fun r => r.id)).Nodup)
    (hv : vec.Pairwise (fun a b => b.similarity < a.similarity))
    (hk : kw.Pairwise (fun a b => b.score < a.score)) :
    (hybridFusion vec kw k .weighted 1).map (fun r => r.id) =
        (vec.map (fun r => r.id)).take k ∧
      (hybridFusion vec kw k .weighted 0).map (fun r => r.id) =
        (kw.map (fun r => r.id)).take k := by
  have hknodup : (kw.map (fun r => r.id)).Nodup := hperm.nodup_iff.mp hnodup
  have hfilter : kw.filter (fun r => !(vec.any (fun v => v.id == r.id))) = [] := by
    rw [List.filter_eq_nil_iff]
    intro r hr
    have hrid : r.id ∈ vec.map (fun v => v.id) :=
      hperm.mem_iff.mpr (List.mem_map_of_mem (fun x => x.id) hr)
    obtain ⟨v, hvmem, hvid⟩ := List.mem_map.mp hrid
    have hany : vec.any (fun v => v.id == r.id) = true :=
      List.any_eq_true.mpr ⟨v, hvmem, by simp [hvid]⟩
    simp [hany]
  have hfuse : ∀ (alpha : ℝ), hybridFusion vec kw k .weighted alpha =
      (sortDescBy (fun r => r.score)
        ((vec.map (fun r => r.id)).map (fusionEntry vec kw .weighted alpha))).take k := by
    intro alpha
    unfold hybridFusion
    rw [hfilter, List.map_nil, List.append_nil]
  have hitems1 : ((vec.map (fun r => r.id)).map (fusionEntry vec kw .weighted 1)).Pairwise
      (fun a b => b.score ≤ a.score) := by
    rw [List.map_map, List.pairwise_map]
    refine List.Pairwise.imp_of_mem ?_ hv
    intro a b ha hb hab
    show (fusionEntry vec kw .weighted 1 b.id).score ≤
      (fusionEntry vec kw .weighted 1 a.id).score
    rw [fusionEntry_score_weighted_one vec kw b hb hnodup,
      fusionEntry_score_weighted_one vec kw a ha hnodup]
    exact minMaxNorm_le _ (le_of_lt hab)
  have hone : (hybridFusion vec kw k .weighted 1).map (fun r => r.id) =
      (vec.map (fun r => r.id)).take k := by
    rw [hfuse 1]
    have hsort1 : sortDescBy (fun r => r.score)
        ((vec.map (fun r => r.id)).map (fusionEntry vec kw .weighted 1)) =
        (vec.map (fun r => r.id)).map (fusionEntry vec kw .weighted 1) := by
      unfold sortDescBy
      exact List.Sorted.insertionSort_eq hitems1
    rw [hsort1, List.map_take, List.map_map]
    congr 1
    refine (List.map_congr_left ?_).trans (List.map_id _)
    intro i _
    rfl
  have hkitems : ((kw.map (fun r => r.id)).map (fusionEntry vec kw .weighted 0)).Pairwise
      (fun a b => b.score < a.score) := by
    rw [List.map_map, List.pairwise_map]
    refine List.Pairwise.imp_of_mem ?_ hk
    intro a b ha hb hab
    show (fusionEntry vec kw .weighted 0 b.id).score <
      (fusionEntry vec kw .weighted 0 a.id).score
    rw [fusionEntry_score_weighted_zero vec kw b hb hknodup,
      fusionEntry_score_weighted_zero vec kw a ha hknodup]
    exact minMaxNorm_lt _ (List.mem_map_of_mem _ hb) (List.mem_map_of_mem _ ha) hab
  have hzero : (hybridFusion vec kw k .weighted 0).map (fun r => r.id) =
      (kw.map (fun r => r.id)).take k := by
    rw [hfuse 0]
    have hperm2 : List.Perm
        ((vec.map (fun r => r.id)).map (fusionEntry vec kw .weighted 0))
        ((kw.map (fun r => r.id)).map (fusionEntry vec kw .weighted 0)) :=
      hperm.map _
    have heq : sortDescBy (fun r => r.score)
        ((vec.map (fun r => r.id)).map (fusionEntry vec kw .weighted 0)) =
        (kw.map (fun r => r.id)).map (fusionEntry vec kw .weighted 0) :=
      sorted_perm_eq_of_strict (fun r : HybridSearchResult => r.score) _ _
        ((sortDescBy_perm _ _).trans hperm2)
        (sortDescBy_sorted (fun r : HybridSearchResult => r.score) _) hkitems
    rw [heq, List.map_take, List.map_map]
    congr 1
    refine (List.map_congr_left ?_).trans (List.map_id _)
    intro i _
    rfl
  exact ⟨hone, hzero⟩

/-- Witness for `c8_weighted_extremes` at concrete same-document sub-result
lists. -/
theorem c8_witness :
    List.Perm (w8Vec.map (fun r => r.id)) (w8Kw.map (fun r => r.id)) ∧
      (w8Vec.map (fun r => r.id)).Nodup ∧
      w8Vec.Pairwise (fun a b => b.similarity < a.similarity) ∧
      w8Kw.Pairwise (fun a b => b.score < a.score) ∧
      (hybridFusion w8Vec w8Kw 2 .weighted 1).map (fun r => r.id) =
        (w8Vec.map (fun r => r.id)).take 2 ∧
      (hybridFusion w8Vec w8Kw 2 .weighted 0).map (fun r => r.id) =
        (w8Kw.map (fun r => r.id)).take 2 := by
  have h1 : List.Perm (w8Vec.map (fun r => r.id)) (w8Kw.map (fun r => r.id)) := by
    show List.Perm ["a", "b"] ["b", "a"]
    exact List.Perm.swap "b" "a" []
  have h2 : (w8Vec.map (fun r => r.id)).Nodup := by
    show (["a", "b"] : List String).Nodup
    decide
  have h3 : w8Vec.Pairwise (fun a b => b.similarity < a.similarity) := by
    unfold w8Vec
    rw [List.pairwise_cons]
    constructor
    · intro b hb
      rw [List.mem_singleton.mp hb]
      norm_num
    · rw [List.pairwise_cons]
      exact ⟨fun b hb => absurd hb (List.not_mem_nil b), List.Pairwise.nil⟩
  have h4 : w8Kw.Pairwise (fun a b => b.score < a.score) := by
    unfold w8Kw
    rw [List.pairwise_cons]
    constructor
    · intro b hb
      rw [List.mem_singleton.mp hb]
      norm_num
    · rw [List.pairwise_cons]
      exact ⟨fun b hb => absurd hb (List.not_mem_nil b), List.Pairwise.nil⟩
  have hmain := c8_weighted_extremes w8Vec w8Kw 2 h1 h2 h3 h4
  exact ⟨h1, h2, h3, h4, hmain.1, hmain.2⟩

end MiniAgent
